import Mathlib

/-!
Verification of the realtime chat relay backend (`server.js`).

The development shallowly embeds the parts of the server that the
specification's claims are about:

* the `chatMessage` socket handler (persist → in-app broadcast → push
  fan-out with pruning of gone subscriptions),
* the `POST /api/save-subscription` endpoint (payload validation and
  upsert-by-endpoint into the subscription store),
* the `joinSession` handler over the Socket.IO room registry.

Effectful JavaScript is modelled as pure functions returning a list of
observable effects together with the updated store state.  External
outcomes the code reacts to (the message save failing, the subscription
query failing, each push delivery's result) are supplied as explicit
oracle arguments, so the theorems can quantify over every behaviour of
the collaborators.
-/

namespace ChatBackend

/-- Push-subscription key material as it appears on the wire.  The code
passes the client's `keys` object through without validating its fields
(duck typing), so both fields are optional here. -/
structure KeysPayload where
  p256dh : Option String
  auth : Option String
deriving DecidableEq, Repr

/-- A stored push subscription (`subscriptionSchema`): the endpoint, the
raw `keys` object, and the `sessionId` the registering client supplied
(`sub.sessionId`, which the endpoint reads without checking presence). -/
structure Subscription where
  endpoint : String
  keys : KeysPayload
  sessionId : Option String
deriving DecidableEq, Repr

/-- The inbound `chatMessage` socket event's destructured fields. -/
structure ChatEvent where
  sessionId : String
  sender : String
  text : String
  fileUrl : String
  fileType : String
deriving DecidableEq, Repr

/-- The `messageData` object the handler builds and broadcasts:
`{ sessionId, sender, text, fileUrl, fileType }` — no `createdAt`. -/
structure BroadcastMsg where
  sessionId : String
  sender : String
  text : String
  fileUrl : String
  fileType : String
deriving DecidableEq, Repr

/-- A persisted `Message` document: the broadcast fields plus the
server-assigned `createdAt` timestamp from the schema default. -/
structure StoredMessage where
  sessionId : String
  sender : String
  text : String
  fileUrl : String
  fileType : String
  createdAt : Nat
deriving DecidableEq, Repr

/-- The push notification payload the handler serialises:
`{ title, body, icon, url }`, with `icon` omitted (`undefined`) when the
file is not an image. -/
structure PushPayload where
  title : String
  body : String
  icon : Option String
  url : String
deriving DecidableEq, Repr

/-- The durable store as the handler sees it: the `Message` collection
and the `Subscription` collection. -/
structure StoreState where
  messages : List StoredMessage
  subs : List Subscription
deriving DecidableEq, Repr

/-- Result of one `webpush.sendNotification` attempt, as observed by the
`.catch` handler: either the promise resolves, or it rejects with an
error carrying a numeric `statusCode`. -/
inductive PushOutcome where
  | success
  | failure (statusCode : Nat)
deriving DecidableEq, Repr

/-- Observable effects of the `chatMessage` handler, in program order:
console logging of a failed save, the `io.to(sessionId).emit` broadcast,
the `Subscription.find({ sessionId })` query, console logging of a
failed query, one `webpush.sendNotification` call per subscription, the
pruning `Subscription.deleteOne({ endpoint })`, and console logging of a
non-gone push error. -/
inductive Effect where
  | logSaveError
  | broadcast (sessionId : String) (payload : BroadcastMsg)
  | querySubs (sessionId : String)
  | logFindError
  | pushAttempt (endpoint : String) (payload : PushPayload)
  | deleteSub (endpoint : String)
  | logPushError (statusCode : Nat)
deriving DecidableEq, Repr

/-- `const messageData = { sessionId, sender, text, fileUrl, fileType }`. -/
def mkBroadcastMsg (ev : ChatEvent) : BroadcastMsg :=
  { sessionId := ev.sessionId
    sender := ev.sender
    text := ev.text
    fileUrl := ev.fileUrl
    fileType := ev.fileType }

/-- The `Message` document built from the event, with the schema's
`createdAt: Date.now` default. -/
def mkStoredMessage (ev : ChatEvent) (now : Nat) : StoredMessage :=
  { sessionId := ev.sessionId
    sender := ev.sender
    text := ev.text
    fileUrl := ev.fileUrl
    fileType := ev.fileType
    createdAt := now }

/-- The notification payload the handler builds once per event:
`title` from the sender, `body` ` = text?.slice(0, 100) || 'Sent an
attachment'` (an empty slice is falsy in JS, so empty text falls back),
`icon = fileType?.startsWith('image/') ? fileUrl : undefined`, and the
deep link `url = BASE_URL + '/chat/' + sessionId`. -/
def buildPayload (baseUrl : String) (ev : ChatEvent) : PushPayload :=
  { title := "New message from " ++ ev.sender
    body := if (ev.text.take 100).isEmpty then "Sent an attachment" else ev.text.take 100
    icon := if ev.fileType.startsWith "image/" then some ev.fileUrl else none
    url := baseUrl ++ "/chat/" ++ ev.sessionId }

/-- One `webpush.sendNotification(sub, payload).catch(...)` dispatch:
an attempt always happens; on rejection with `statusCode` 410 or 404 the
subscription is deleted from the store by endpoint (`deleteOne` removes
the first matching document), and any other rejection is only logged. -/
def dispatchOne (payload : PushPayload) (outcome : Subscription → PushOutcome)
    (s : Subscription) (store : List Subscription) :
    List Effect × List Subscription :=
  match outcome s with
  | .success => ([.pushAttempt s.endpoint payload], store)
  | .failure code =>
      if code == 410 || code == 404 then
        ([.pushAttempt s.endpoint payload, .deleteSub s.endpoint],
          store.eraseP (fun t => t.endpoint == s.endpoint))
      else
        ([.pushAttempt s.endpoint payload, .logPushError code], store)

/-- `subs.forEach(sub => webpush.sendNotification(sub, payload).catch(...))`:
every subscription in the snapshot gets exactly one dispatch; deletions
triggered by failed dispatches update the store but never the snapshot
being iterated. -/
def dispatchList (payload : PushPayload) (outcome : Subscription → PushOutcome) :
    List Subscription → List Subscription → List Effect × List Subscription
  | [], store => ([], store)
  | s :: rest, store =>
      let r1 := dispatchOne payload outcome s store
      let r2 := dispatchList payload outcome rest r1.2
      (r1.1 ++ r2.1, r2.2)

/-- The `chatMessage` socket handler.  `saveOk` is whether
`new Message(messageData).save()` resolves; `findOk` is whether
`Subscription.find({ sessionId })` resolves; `outcome` gives each
`sendNotification` call's result.  Mirrors the source's control flow:
try save (log on failure), broadcast unconditionally, then query the
subscriptions (log on failure) and dispatch to each. -/
def handleChatMessage (baseUrl : String) (ev : ChatEvent) (now : Nat)
    (saveOk : Bool) (findOk : Bool) (outcome : Subscription → PushOutcome)
    (st : StoreState) : List Effect × StoreState :=
  let saved :=
    if saveOk then
      (([] : List Effect), { st with messages := st.messages ++ [mkStoredMessage ev now] })
    else
      ([Effect.logSaveError], st)
  let broadcastEffs := [Effect.broadcast ev.sessionId (mkBroadcastMsg ev)]
  let pushed :=
    if findOk then
      let snapshot := saved.2.subs.filter (fun s => s.sessionId == some ev.sessionId)
      let payload := buildPayload baseUrl ev
      let d := dispatchList payload outcome snapshot saved.2.subs
      (Effect.querySubs ev.sessionId :: d.1, { saved.2 with subs := d.2 })
    else
      ([Effect.logFindError], saved.2)
  (saved.1 ++ broadcastEffs ++ pushed.1, pushed.2)

/-- `Effect.broadcast` recogniser, for extracting the broadcast part of
a trace. -/
def Effect.isBroadcast : Effect → Bool
  | .broadcast _ _ => true
  | _ => false

/-- Extracts a push delivery attempt (endpoint and payload) from an
effect, if it is one. -/
def Effect.attemptOf : Effect → Option (String × PushPayload)
  | .pushAttempt e p => some (e, p)
  | _ => none

/-- The Socket.IO room registry: the set of (socket id, room) pairs.
Rooms in Socket.IO are sets of socket ids, so `socket.join` adds the
pair only if it is not already present. -/
def joinSession (reg : List (String × String)) (c sid : String) :
    List (String × String) :=
  if reg.contains (c, sid) then reg else (c, sid) :: reg

/-- `io.to(sessionId).emit(...)` delivers to every socket currently in
the room `sessionId` (the emitting socket included, if joined). -/
def broadcastRecipients (reg : List (String × String)) (sid : String) :
    List String :=
  (reg.filter (fun p => p.2 == sid)).map (fun p => p.1)

/-- The `POST /api/save-subscription` request body: the forwarded
PushSubscription JSON plus the `sessionId` property the front-end is
expected to add.  Any field may be absent. -/
structure SubPayload where
  endpoint : Option String
  keys : Option KeysPayload
  sessionId : Option String
deriving DecidableEq, Repr

/-- JavaScript falsiness of an optional string field: absent (or null /
undefined) and the empty string are falsy. -/
def strFalsy : Option String → Bool
  | none => true
  | some s => s.isEmpty

/-- `Subscription.findOneAndUpdate({ endpoint }, { endpoint, keys,
sessionId }, { upsert: true })`: replace the first stored document with
this endpoint, or append a new one when none matches. -/
def upsertSubscription (ep : String) (ks : KeysPayload) (sid : Option String) :
    List Subscription → List Subscription
  | [] => [{ endpoint := ep, keys := ks, sessionId := sid }]
  | s :: rest =>
      if s.endpoint == ep then { endpoint := ep, keys := ks, sessionId := sid } :: rest
      else s :: upsertSubscription ep ks sid rest

/-- The `POST /api/save-subscription` handler: reject with 400 when
`!sub.endpoint || !sub.keys`, otherwise upsert by endpoint and answer
201, answering 500 if the store operation rejects (`storeOk = false`).
Returns the HTTP status and the updated subscription store. -/
def saveSubscription (body : SubPayload) (storeOk : Bool)
    (store : List Subscription) : Nat × List Subscription :=
  if strFalsy body.endpoint || body.keys.isNone then
    (400, store)
  else
    match body.endpoint, body.keys with
    | some ep, some ks =>
        if storeOk then (201, upsertSubscription ep ks body.sessionId store)
        else (500, store)
    | _, _ => (400, store)

/-! ### Structural lemmas about the handler and the dispatch loop -/

/-- Closed form of `handleChatMessage`: the trace is the save log,
then the broadcast, then the push part; only the push part depends on
the subscription query and delivery outcomes. -/
theorem handleChatMessage_eq (baseUrl : String) (ev : ChatEvent) (now : Nat)
    (saveOk findOk : Bool) (o : Subscription → PushOutcome) (st : StoreState) :
    handleChatMessage baseUrl ev now saveOk findOk o st =
      ((if saveOk then [] else [Effect.logSaveError]) ++
        Effect.broadcast ev.sessionId (mkBroadcastMsg ev) ::
        (if findOk then
          Effect.querySubs ev.sessionId ::
            (dispatchList (buildPayload baseUrl ev) o
              (st.subs.filter (fun s => s.sessionId == some ev.sessionId)) st.subs).1
         else [Effect.logFindError]),
       { messages := if saveOk then st.messages ++ [mkStoredMessage ev now] else st.messages
         subs := if findOk then
             (dispatchList (buildPayload baseUrl ev) o
               (st.subs.filter (fun s => s.sessionId == some ev.sessionId)) st.subs).2
           else st.subs }) := by
  cases saveOk <;> cases findOk <;> rfl

/-- The trace of one dispatch is the attempt to that subscription,
possibly followed by its deletion or an error log. -/
theorem dispatchOne_trace (p : PushPayload) (o : Subscription → PushOutcome)
    (s : Subscription) (store : List Subscription) :
    (dispatchOne p o s store).1 = [Effect.pushAttempt s.endpoint p] ∨
    (dispatchOne p o s store).1 =
      [Effect.pushAttempt s.endpoint p, Effect.deleteSub s.endpoint] ∨
    ∃ c, (dispatchOne p o s store).1 =
      [Effect.pushAttempt s.endpoint p, Effect.logPushError c] := by
  cases ho : o s with
  | success => left; simp [dispatchOne, ho]
  | failure code =>
      simp only [dispatchOne, ho]
      by_cases hc : (code == 410 || code == 404) = true
      · right; left; simp [hc]
      · right; right; exact ⟨code, by simp [hc]⟩

/-- The store after one dispatch is a sublist of the store before it:
dispatch only ever deletes subscriptions. -/
theorem dispatchOne_subs_sublist (p : PushPayload)
    (o : Subscription → PushOutcome) (s : Subscription)
    (store : List Subscription) :
    List.Sublist (dispatchOne p o s store).2 store := by
  cases ho : o s with
  | success => simp [dispatchOne, ho]
  | failure code =>
      simp only [dispatchOne, ho]
      by_cases hc : (code == 410 || code == 404) = true
      · simpa [hc] using List.eraseP_sublist store
      · simp [hc]

/-- Every effect the dispatch loop emits is a push attempt, a
subscription deletion, or a push-error log — never a broadcast. -/
theorem dispatchList_not_broadcast (p : PushPayload)
    (o : Subscription → PushOutcome) :
    ∀ subs store, ∀ e ∈ (dispatchList p o subs store).1,
      e.isBroadcast = false := by
  intro subs
  induction subs with
  | nil => intro store e he; simp [dispatchList] at he
  | cons s rest ih =>
      intro store e he
      simp only [dispatchList, List.mem_append] at he
      rcases he with he | he
      · rcases dispatchOne_trace p o s store with h1 | h1 | ⟨c, h1⟩ <;>
          rw [h1] at he <;> simp at he <;>
          rcases he with rfl | rfl <;> rfl
      · exact ih _ e he

/-- The delivery attempts the dispatch loop makes are exactly the
snapshot's subscriptions, in order, each with the same payload —
whatever the outcomes of the individual deliveries are. -/
theorem dispatchList_attempts (p : PushPayload)
    (o : Subscription → PushOutcome) :
    ∀ subs store,
      ((dispatchList p o subs store).1).filterMap Effect.attemptOf =
        subs.map (fun s => (s.endpoint, p)) := by
  intro subs
  induction subs with
  | nil => intro store; simp [dispatchList]
  | cons s rest ih =>
      intro store
      simp only [dispatchList, List.filterMap_append, List.map_cons]
      rw [ih]
      rcases dispatchOne_trace p o s store with h1 | h1 | ⟨c, h1⟩ <;>
        rw [h1] <;> simp [Effect.attemptOf]

/-- Membership form of `dispatchList_attempts`: an attempt to an
endpoint with some payload is made exactly when a snapshot subscription
has that endpoint and the payload is the shared one. -/
theorem pushAttempt_mem_iff (p : PushPayload) (o : Subscription → PushOutcome)
    (subs store : List Subscription) (ep : String) (q : PushPayload) :
    Effect.pushAttempt ep q ∈ (dispatchList p o subs store).1 ↔
      (q = p ∧ ∃ s ∈ subs, s.endpoint = ep) := by
  have h := dispatchList_attempts p o subs store
  constructor
  · intro hmem
    have hm : (ep, q) ∈ ((dispatchList p o subs store).1).filterMap Effect.attemptOf :=
      List.mem_filterMap.mpr ⟨_, hmem, rfl⟩
    rw [h] at hm
    rcases List.mem_map.mp hm with ⟨s, hs, heq⟩
    obtain ⟨h1, h2⟩ := Prod.mk.injEq _ _ _ _ ▸ heq
    exact ⟨h2.symm, s, hs, h1⟩
  · rintro ⟨hq, s, hs, hep⟩
    rw [hq, ← hep]
    have hm : (s.endpoint, p) ∈ ((dispatchList p o subs store).1).filterMap Effect.attemptOf := by
      rw [h]; exact List.mem_map.mpr ⟨s, hs, rfl⟩
    rcases List.mem_filterMap.mp hm with ⟨e, he, hat⟩
    cases e <;> simp [Effect.attemptOf] at hat
    obtain ⟨rfl, rfl⟩ := hat
    exact he

/-- The store after the whole dispatch loop is a sublist of the store
before it. -/
theorem dispatchList_subs_sublist (p : PushPayload)
    (o : Subscription → PushOutcome) :
    ∀ subs store, List.Sublist (dispatchList p o subs store).2 store := by
  intro subs
  induction subs with
  | nil => intro store; simp [dispatchList]
  | cons s rest ih =>
      intro store
      exact List.Sublist.trans (ih _) (dispatchOne_subs_sublist p o s store)

/-- Erasing by a predicate that at most one element satisfies leaves no
element satisfying it. -/
theorem countP_eraseP_self (q : Subscription → Bool) :
    ∀ l : List Subscription, l.countP q ≤ 1 → (l.eraseP q).countP q = 0 := by
  intro l
  induction l with
  | nil => intro _; simp
  | cons a l ih =>
      intro hle
      by_cases ha : q a = true
      · rw [List.eraseP_cons_of_pos ha]
        rw [List.countP_cons_of_pos _ _ ha] at hle
        omega
      · rw [List.eraseP_cons_of_neg (by simpa using ha)]
        rw [List.countP_cons_of_neg _ _ (by simpa using ha)] at hle
        rw [List.countP_cons_of_neg _ _ (by simpa using ha)]
        exact ih hle

/-- A permanently-gone delivery failure for a snapshot subscription
leaves no stored subscription with its endpoint, provided the endpoint
occurred at most once in the store (it is unique-indexed). -/
theorem dispatchList_gone_countP (p : PushPayload)
    (o : Subscription → PushOutcome) (s : Subscription) (code : Nat) :
    ∀ subs store, s ∈ subs → o s = .failure code →
      (code = 410 ∨ code = 404) →
      store.countP (fun t => t.endpoint == s.endpoint) ≤ 1 →
      ((dispatchList p o subs store).2).countP
        (fun t => t.endpoint == s.endpoint) = 0 := by
  intro subs
  induction subs with
  | nil => intro store hs; simp at hs
  | cons a rest ih =>
      intro store hs ho hcode hle
      rcases List.mem_cons.mp hs with rfl | hs
      · have hst : (dispatchOne p o s store).2 =
            store.eraseP (fun t => t.endpoint == s.endpoint) := by
          have hc : (code == 410 || code == 404) = true := by
            rcases hcode with rfl | rfl <;> simp
          simp [dispatchOne, ho, hc]
        have h0 : ((dispatchOne p o s store).2).countP
            (fun t => t.endpoint == s.endpoint) = 0 := by
          rw [hst]; exact countP_eraseP_self _ store hle
        have hsub := dispatchList_subs_sublist p o rest (dispatchOne p o s store).2
        have := List.Sublist.countP_le (fun t => t.endpoint == s.endpoint) hsub
        simp only [dispatchList]
        omega
      · have hsub := dispatchOne_subs_sublist p o a store
        have hle2 : ((dispatchOne p o a store).2).countP
            (fun t => t.endpoint == s.endpoint) ≤ 1 :=
          le_trans (List.Sublist.countP_le _ hsub) hle
        simpa [dispatchList] using ih _ hs ho hcode hle2

/-- A permanently-gone delivery failure for a snapshot subscription
makes the loop issue a store deletion for its endpoint. -/
theorem dispatchList_gone_deletes (p : PushPayload)
    (o : Subscription → PushOutcome) (s : Subscription) (code : Nat) :
    ∀ subs store, s ∈ subs → o s = .failure code →
      (code = 410 ∨ code = 404) →
      Effect.deleteSub s.endpoint ∈ (dispatchList p o subs store).1 := by
  intro subs
  induction subs with
  | nil => intro store hs; simp at hs
  | cons a rest ih =>
      intro store hs ho hcode
      simp only [dispatchList, List.mem_append]
      rcases List.mem_cons.mp hs with rfl | hs
      · left
        have hc : (code == 410 || code == 404) = true := by
          rcases hcode with rfl | rfl <;> simp
        simp [dispatchOne, ho, hc]
      · right; exact ih _ hs ho hcode

/-- A non-gone delivery failure for a snapshot subscription makes the
loop log the error. -/
theorem dispatchList_other_logs (p : PushPayload)
    (o : Subscription → PushOutcome) (s : Subscription) (code : Nat) :
    ∀ subs store, s ∈ subs → o s = .failure code →
      code ≠ 410 → code ≠ 404 →
      Effect.logPushError code ∈ (dispatchList p o subs store).1 := by
  intro subs
  induction subs with
  | nil => intro store hs; simp at hs
  | cons a rest ih =>
      intro store hs ho h410 h404
      simp only [dispatchList, List.mem_append]
      rcases List.mem_cons.mp hs with rfl | hs
      · left
        have hc : (code == 410 || code == 404) = false := by
          simp [h410, h404]
        simp [dispatchOne, ho, hc]
      · right; exact ih _ hs ho h410 h404

/-- A stored subscription whose endpoint never receives a gone
classification during the loop survives the loop. -/
theorem mem_dispatchList_subs (p : PushPayload)
    (o : Subscription → PushOutcome) (s : Subscription) :
    ∀ subs store, s ∈ store →
      (∀ t ∈ subs, ∀ c, o t = .failure c → (c = 410 ∨ c = 404) →
        t.endpoint ≠ s.endpoint) →
      s ∈ (dispatchList p o subs store).2 := by
  intro subs
  induction subs with
  | nil => intro store hst _; simpa [dispatchList] using hst
  | cons a rest ih =>
      intro store hst hsafe
      have hstep : s ∈ (dispatchOne p o a store).2 := by
        cases ho : o a with
        | success => simpa [dispatchOne, ho] using hst
        | failure code =>
            by_cases hc : (code == 410 || code == 404) = true
            · have hne : a.endpoint ≠ s.endpoint := by
                refine hsafe a (List.mem_cons_self a rest) code ho ?_
                rcases Bool.or_eq_true_iff.mp hc with h | h
                · exact Or.inl (by simpa using h)
                · exact Or.inr (by simpa using h)
              have hpa : ¬((fun t : Subscription => t.endpoint == a.endpoint) s = true) := by
                simpa using fun h => hne h.symm
              simp only [dispatchOne, ho, hc, if_true]
              exact (List.mem_eraseP_of_neg
                (p := fun t : Subscription => t.endpoint == a.endpoint)
                (a := s) hpa).mpr hst
            · simpa [dispatchOne, ho, hc] using hst
      exact ih _ hstep (fun t ht => hsafe t (List.mem_cons_of_mem a ht))

/-- An endpoint targeted by an attempt in the loop's trace belongs to a
snapshot subscription. -/
theorem pushAttempt_endpoint_mem (p : PushPayload)
    (o : Subscription → PushOutcome) (subs store : List Subscription)
    (ep : String) (q : PushPayload)
    (h : Effect.pushAttempt ep q ∈ (dispatchList p o subs store).1) :
    ∃ s ∈ subs, s.endpoint = ep :=
  ((pushAttempt_mem_iff p o subs store ep q).mp h).2

/-- The dispatch loop's trace contributes nothing to the broadcast part
of the handler trace. -/
theorem dispatchList_filter_broadcast (p : PushPayload)
    (o : Subscription → PushOutcome) (subs store : List Subscription) :
    ((dispatchList p o subs store).1).filter Effect.isBroadcast = [] := by
  rw [List.filter_eq_nil_iff]
  intro e he
  simp [dispatchList_not_broadcast p o subs store e he]

/-! ### Claim theorems -/

/-- C1: if persisting the message fails, the failure is logged and the
handler still broadcasts the same payload to the session group; the
broadcast part of the trace is identical whether or not the save
succeeded. -/
theorem persist_failure_still_broadcasts (baseUrl : String) (ev : ChatEvent)
    (now : Nat) (findOk : Bool) (o : Subscription → PushOutcome)
    (st : StoreState) :
    Effect.logSaveError ∈ (handleChatMessage baseUrl ev now false findOk o st).1 ∧
    Effect.broadcast ev.sessionId (mkBroadcastMsg ev) ∈
      (handleChatMessage baseUrl ev now false findOk o st).1 ∧
    ((handleChatMessage baseUrl ev now false findOk o st).1).filter
        Effect.isBroadcast =
      ((handleChatMessage baseUrl ev now true findOk o st).1).filter
        Effect.isBroadcast := by
  rw [handleChatMessage_eq, handleChatMessage_eq]
  refine ⟨by simp, by simp, ?_⟩
  cases findOk <;>
    simp [Effect.isBroadcast, dispatchList_filter_broadcast]

/-- C2: the in-app broadcast is issued before push fan-out begins; the
trace up to and including the broadcast (only a possible save-error log
comes before it) and the broadcast's payload are the same for every
behaviour of the subscription query and the push deliveries. -/
theorem broadcast_precedes_push_dispatch (baseUrl : String) (ev : ChatEvent)
    (now : Nat) (saveOk findOk findOk' : Bool)
    (o o' : Subscription → PushOutcome) (st : StoreState) :
    ∃ post post',
      (handleChatMessage baseUrl ev now saveOk findOk o st).1 =
        (if saveOk then [] else [Effect.logSaveError]) ++
          Effect.broadcast ev.sessionId (mkBroadcastMsg ev) :: post ∧
      (handleChatMessage baseUrl ev now saveOk findOk' o' st).1 =
        (if saveOk then [] else [Effect.logSaveError]) ++
          Effect.broadcast ev.sessionId (mkBroadcastMsg ev) :: post' := by
  rw [handleChatMessage_eq, handleChatMessage_eq]
  exact ⟨_, _, rfl, rfl⟩

/-- C5: one event makes exactly one delivery attempt per subscription
recorded for the session, in snapshot order, all sharing the one
payload built for the event; the attempt list does not depend on the
individual delivery outcomes, so no failure skips or alters the other
attempts. -/
theorem one_attempt_per_subscription (baseUrl : String) (ev : ChatEvent)
    (now : Nat) (saveOk : Bool) (o : Subscription → PushOutcome)
    (st : StoreState) :
    ((handleChatMessage baseUrl ev now saveOk true o st).1).filterMap
        Effect.attemptOf =
      (st.subs.filter (fun s => s.sessionId == some ev.sessionId)).map
        (fun s => (s.endpoint, buildPayload baseUrl ev)) := by
  rw [handleChatMessage_eq]
  cases saveOk <;>
    simp [Effect.attemptOf, dispatchList_attempts]

/-- C6: the broadcast part of the handler trace is exactly one emit to
the event's session group carrying the five-field payload (no
`createdAt`), and a connection receives a broadcast to session `S`
precisely when it is joined to `S` — the sender included, connections
joined only to other sessions excluded. -/
theorem broadcast_payload_and_recipients (baseUrl : String) (ev : ChatEvent)
    (now : Nat) (saveOk findOk : Bool) (o : Subscription → PushOutcome)
    (st : StoreState) (reg : List (String × String)) (c : String) :
    ((handleChatMessage baseUrl ev now saveOk findOk o st).1).filter
        Effect.isBroadcast =
      [Effect.broadcast ev.sessionId
        { sessionId := ev.sessionId, sender := ev.sender, text := ev.text,
          fileUrl := ev.fileUrl, fileType := ev.fileType }] ∧
    (c ∈ broadcastRecipients reg ev.sessionId ↔ (c, ev.sessionId) ∈ reg) := by
  constructor
  · rw [handleChatMessage_eq]
    cases saveOk <;> cases findOk <;>
      simp [Effect.isBroadcast, dispatchList_filter_broadcast, mkBroadcastMsg]
  · simp only [broadcastRecipients, List.mem_map, List.mem_filter]
    constructor
    · rintro ⟨⟨a, b⟩, ⟨hmem, hb⟩, rfl⟩
      have hb2 : b = ev.sessionId := by simpa using hb
      subst hb2; exact hmem
    · intro h
      exact ⟨(c, ev.sessionId), ⟨h, by simp⟩, rfl⟩

/-- In a duplicate-free list, at most one element equals any given
value. -/
theorem countP_beq_le_one_of_nodup {l : List String} (h : l.Nodup)
    (a : String) : l.countP (fun x => x == a) ≤ 1 := by
  induction l with
  | nil => simp
  | cons b l ih =>
      rcases List.nodup_cons.mp h with ⟨hb, hl⟩
      by_cases hba : (b == a) = true
      · have hzero : l.countP (fun x => x == a) = 0 := by
          rw [List.countP_eq_zero]
          intro x hx hxa
          have hxa2 : x = a := by simpa using hxa
          have hba2 : b = a := by simpa using hba
          exact hb (by rw [hba2, ← hxa2]; exact hx)
        rw [List.countP_cons]
        simp [hba, hzero]
      · rw [List.countP_cons]
        have := ih hl
        simp only [hba, if_false]
        simpa using this

/-- Endpoint uniqueness transfers from the endpoint list to the
subscription-level predicate count. -/
theorem countP_endpoint_le_one (st : List Subscription)
    (hnodup : (st.map (fun t => t.endpoint)).Nodup) (ep : String) :
    st.countP (fun t => t.endpoint == ep) ≤ 1 := by
  have h := countP_beq_le_one_of_nodup hnodup ep
  rwa [List.countP_map] at h

/-- If no stored subscription has a given endpoint, an event makes no
delivery attempt to that endpoint. -/
theorem no_attempt_when_absent (baseUrl : String) (ev : ChatEvent)
    (now : Nat) (saveOk : Bool) (o : Subscription → PushOutcome)
    (st : StoreState) (ep : String)
    (habs : st.subs.countP (fun t => t.endpoint == ep) = 0) (q : PushPayload) :
    Effect.pushAttempt ep q ∉ (handleChatMessage baseUrl ev now saveOk true o st).1 := by
  intro hq
  rw [handleChatMessage_eq] at hq
  have hd : Effect.pushAttempt ep q ∈
      (dispatchList (buildPayload baseUrl ev) o
        (st.subs.filter (fun t => t.sessionId == some ev.sessionId)) st.subs).1 := by
    cases saveOk <;> simpa using hq
  rcases pushAttempt_endpoint_mem _ _ _ _ _ _ hd with ⟨t, ht, hte⟩
  have ht2 : t ∈ st.subs := (List.mem_filter.mp ht).1
  have hnot := (List.countP_eq_zero.mp habs) t ht2
  simp [hte] at hnot

/-- A subscription stored for the event's session receives a delivery
attempt carrying the event's payload. -/
theorem attempt_when_subscribed (baseUrl : String) (ev : ChatEvent)
    (now : Nat) (saveOk : Bool) (o : Subscription → PushOutcome)
    (st : StoreState) (s : Subscription)
    (hmem : s ∈ st.subs) (hsess : s.sessionId = some ev.sessionId) :
    Effect.pushAttempt s.endpoint (buildPayload baseUrl ev) ∈
      (handleChatMessage baseUrl ev now saveOk true o st).1 := by
  rw [handleChatMessage_eq]
  have hsnap : s ∈ st.subs.filter (fun t => t.sessionId == some ev.sessionId) :=
    List.mem_filter.mpr ⟨hmem, by simp [hsess]⟩
  have hd : Effect.pushAttempt s.endpoint (buildPayload baseUrl ev) ∈
      (dispatchList (buildPayload baseUrl ev) o
        (st.subs.filter (fun t => t.sessionId == some ev.sessionId)) st.subs).1 :=
    (pushAttempt_mem_iff _ o _ st.subs s.endpoint _).mpr ⟨rfl, s, hsnap, rfl⟩
  cases saveOk <;> simp [hd]

/-- C3: a delivery failure with status 404 or 410 for a stored
subscription causes its deletion by endpoint — afterwards no
subscription with that endpoint remains and no subsequent event
attempts delivery to it — while any other failure is only logged and
the subscription stays stored and is attempted again by the next event
for its session.  (The endpoint column is unique-indexed, hence the
no-duplicate hypothesis.) -/
theorem push_failure_classification (baseUrl : String) (ev : ChatEvent)
    (now : Nat) (saveOk : Bool) (o : Subscription → PushOutcome)
    (st : StoreState) (s : Subscription) (code : Nat)
    (hmem : s ∈ st.subs) (hsess : s.sessionId = some ev.sessionId)
    (hnodup : (st.subs.map (fun t => t.endpoint)).Nodup)
    (ho : o s = .failure code) :
    ((code = 410 ∨ code = 404) →
      Effect.deleteSub s.endpoint ∈
        (handleChatMessage baseUrl ev now saveOk true o st).1 ∧
      ((handleChatMessage baseUrl ev now saveOk true o st).2).subs.countP
        (fun t => t.endpoint == s.endpoint) = 0 ∧
      (∀ (ev2 : ChatEvent) (now2 : Nat) (saveOk2 : Bool)
          (o2 : Subscription → PushOutcome) (q : PushPayload),
        Effect.pushAttempt s.endpoint q ∉
          (handleChatMessage baseUrl ev2 now2 saveOk2 true o2
            (handleChatMessage baseUrl ev now saveOk true o st).2).1)) ∧
    (code ≠ 410 → code ≠ 404 →
      Effect.logPushError code ∈
        (handleChatMessage baseUrl ev now saveOk true o st).1 ∧
      s ∈ ((handleChatMessage baseUrl ev now saveOk true o st).2).subs ∧
      (∀ (now2 : Nat) (saveOk2 : Bool) (o2 : Subscription → PushOutcome),
        Effect.pushAttempt s.endpoint (buildPayload baseUrl ev) ∈
          (handleChatMessage baseUrl ev now2 saveOk2 true o2
            (handleChatMessage baseUrl ev now saveOk true o st).2).1)) := by
  have hsnap : s ∈ st.subs.filter (fun t => t.sessionId == some ev.sessionId) :=
    List.mem_filter.mpr ⟨hmem, by simp [hsess]⟩
  have hcount : st.subs.countP (fun t => t.endpoint == s.endpoint) ≤ 1 :=
    countP_endpoint_le_one st.subs hnodup s.endpoint
  have hinj : ∀ t ∈ st.subs, t.endpoint = s.endpoint → t = s :=
    fun t ht hte => List.inj_on_of_nodup_map hnodup ht hmem hte
  constructor
  · intro hcode
    have hdel := dispatchList_gone_deletes (buildPayload baseUrl ev) o s code
      (st.subs.filter (fun t => t.sessionId == some ev.sessionId)) st.subs
      hsnap ho hcode
    have hzero := dispatchList_gone_countP (buildPayload baseUrl ev) o s code
      (st.subs.filter (fun t => t.sessionId == some ev.sessionId)) st.subs
      hsnap ho hcode hcount
    have hsubs2 : ((handleChatMessage baseUrl ev now saveOk true o st).2).subs =
        (dispatchList (buildPayload baseUrl ev) o
          (st.subs.filter (fun t => t.sessionId == some ev.sessionId)) st.subs).2 := by
      rw [handleChatMessage_eq]; simp
    refine ⟨?_, ?_, ?_⟩
    · rw [handleChatMessage_eq]
      cases saveOk <;> simp [hdel]
    · rw [hsubs2]; exact hzero
    · intro ev2 now2 saveOk2 o2 q
      apply no_attempt_when_absent
      rw [hsubs2]; exact hzero
  · intro h410 h404
    have hlog := dispatchList_other_logs (buildPayload baseUrl ev) o s code
      (st.subs.filter (fun t => t.sessionId == some ev.sessionId)) st.subs
      hsnap ho h410 h404
    have hsafe : ∀ t ∈ st.subs.filter (fun u => u.sessionId == some ev.sessionId),
        ∀ c, o t = .failure c → (c = 410 ∨ c = 404) → t.endpoint ≠ s.endpoint := by
      intro t ht c hc hcgone hte
      have ht2 : t ∈ st.subs := (List.mem_filter.mp ht).1
      have : t = s := hinj t ht2 hte
      subst this
      rw [ho] at hc
      cases hc
      rcases hcgone with rfl | rfl
      · exact h410 rfl
      · exact h404 rfl
    have hkeep := mem_dispatchList_subs (buildPayload baseUrl ev) o s
      (st.subs.filter (fun u => u.sessionId == some ev.sessionId)) st.subs
      hmem hsafe
    have hsubs2 : ((handleChatMessage baseUrl ev now saveOk true o st).2).subs =
        (dispatchList (buildPayload baseUrl ev) o
          (st.subs.filter (fun t => t.sessionId == some ev.sessionId)) st.subs).2 := by
      rw [handleChatMessage_eq]; simp
    refine ⟨?_, ?_, ?_⟩
    · rw [handleChatMessage_eq]
      cases saveOk <;> simp [hlog]
    · rw [hsubs2]; exact hkeep
    · intro now2 saveOk2 o2
      apply attempt_when_subscribed
      · rw [hsubs2]; exact hkeep
      · exact hsess

/-- C4: the notification body is the first 100 characters of the text
when it is longer than that, the whole text when it has between 1 and
100 characters, and the fallback string when the text is empty; the
icon is the file URL exactly when the file type marks an image; the URL
deep-links back to the session; and every delivery attempt of the
event's handler carries this payload. -/
theorem push_payload_contents (baseUrl : String) (ev : ChatEvent) :
    (100 < ev.text.length →
      (buildPayload baseUrl ev).body = ev.text.take 100 ∧
      ((buildPayload baseUrl ev).body).length = 100) ∧
    (1 ≤ ev.text.length → ev.text.length ≤ 100 →
      (buildPayload baseUrl ev).body = ev.text) ∧
    (ev.text = "" → (buildPayload baseUrl ev).body = "Sent an attachment") ∧
    ((buildPayload baseUrl ev).icon =
      if ev.fileType.startsWith "image/" then some ev.fileUrl else none) ∧
    ((buildPayload baseUrl ev).url = baseUrl ++ "/chat/" ++ ev.sessionId) ∧
    (∀ (now : Nat) (saveOk findOk : Bool) (o : Subscription → PushOutcome)
        (st : StoreState) (ep : String) (q : PushPayload),
      Effect.pushAttempt ep q ∈
        (handleChatMessage baseUrl ev now saveOk findOk o st).1 →
      q = buildPayload baseUrl ev) := by
  have hlen : ev.text.length = ev.text.data.length :=
    (String.length_data ev.text).symm
  have hempty : 0 < ev.text.length → ¬(ev.text.take 100).isEmpty = true := by
    intro hpos hemp
    have h1 : ev.text.take 100 = "" := (String.isEmpty_iff _).mp hemp
    have h2 : ev.text.data.take 100 = [] := by
      have := congrArg String.data h1
      simpa using this
    rcases List.take_eq_nil_iff.mp h2 with h | h
    · omega
    · rw [hlen, h] at hpos; simp at hpos
  refine ⟨?_, ?_, ?_,
    by by_cases hi : ev.fileType.startsWith "image/" <;> simp [buildPayload, hi],
    rfl, ?_⟩
  · intro hlong
    have hni := hempty (by omega)
    constructor
    · simp only [buildPayload]
      rw [if_neg hni]
    · simp only [buildPayload]
      rw [if_neg hni]
      have hd : (ev.text.take 100).data = ev.text.data.take 100 := by simp
      rw [← String.length_data, hd, List.length_take]
      omega
  · intro h1 h100
    have hni := hempty (by omega)
    have htake : ev.text.take 100 = ev.text :=
      String.ext (by simp [List.take_of_length_le (by omega : ev.text.data.length ≤ 100)])
    simp only [buildPayload]
    rw [if_neg hni, htake]
  · intro h
    have hni : ((("" : String).take 100).isEmpty) = true := by
      rw [String.take_eq]; rfl
    simp only [buildPayload, h]
    rw [if_pos hni]
  · intro now saveOk findOk o st ep q hq
    rw [handleChatMessage_eq] at hq
    cases findOk
    · cases saveOk <;> simp at hq
    · have hd : Effect.pushAttempt ep q ∈
          (dispatchList (buildPayload baseUrl ev) o
            (st.subs.filter (fun t => t.sessionId == some ev.sessionId)) st.subs).1 := by
        cases saveOk <;> simpa using hq
      exact ((pushAttempt_mem_iff _ _ _ _ _ _).mp hd).1

/-- Witness for C4 at a 150-character text: the body is truncated to
the first 100 characters. -/
theorem push_payload_contents_witness :
    100 < (String.mk (List.replicate 150 'x')).length ∧
    (buildPayload "http://b"
      ⟨"abc", "u1", String.mk (List.replicate 150 'x'), "", ""⟩).body =
      (String.mk (List.replicate 150 'x')).take 100 :=
  ⟨by rw [String.length_mk, List.length_replicate]; omega,
    ((push_payload_contents "http://b"
      ⟨"abc", "u1", String.mk (List.replicate 150 'x'), "", ""⟩).1
      (by rw [String.length_mk, List.length_replicate]; omega)).1⟩

/-- C7: a registration payload missing its endpoint or its keys is
rejected with HTTP 400 and the subscription store is left unchanged. -/
theorem save_subscription_rejects_malformed (body : SubPayload)
    (storeOk : Bool) (store : List Subscription)
    (h : body.endpoint = none ∨ body.keys = none) :
    saveSubscription body storeOk store = (400, store) := by
  rcases h with h | h
  · simp [saveSubscription, h, strFalsy]
  · rcases hep : body.endpoint with _ | ep
    · simp [saveSubscription, hep, strFalsy]
    · simp [saveSubscription, hep, h, strFalsy]

/-- Witness for C7: a payload with keys but no endpoint gets a 400 and
an empty store stays empty. -/
theorem save_subscription_rejects_malformed_witness :
    ((⟨none, some ⟨some "p", some "a"⟩, some "abc"⟩ : SubPayload).endpoint = none ∨
      (⟨none, some ⟨some "p", some "a"⟩, some "abc"⟩ : SubPayload).keys = none) ∧
    saveSubscription ⟨none, some ⟨some "p", some "a"⟩, some "abc"⟩ true [] = (400, []) :=
  ⟨Or.inl rfl,
    save_subscription_rejects_malformed
      ⟨none, some ⟨some "p", some "a"⟩, some "abc"⟩ true [] (Or.inl rfl)⟩

/-- C8: upserting by an endpoint that occurs at most once leaves
exactly one record with that endpoint, carrying the new keys and
sessionId; every record with a different endpoint is untouched; and the
store grows by one record exactly when the endpoint was fresh. -/
theorem subscription_upsert_unique_endpoint (ep : String) (ks : KeysPayload)
    (sid : Option String) (store : List Subscription)
    (huniq : store.countP (fun t => t.endpoint == ep) ≤ 1) :
    ((upsertSubscription ep ks sid store).filter (fun t => t.endpoint == ep) =
      [{ endpoint := ep, keys := ks, sessionId := sid }]) ∧
    ((upsertSubscription ep ks sid store).filter (fun t => t.endpoint != ep) =
      store.filter (fun t => t.endpoint != ep)) ∧
    ((upsertSubscription ep ks sid store).length =
      if store.any (fun t => t.endpoint == ep) then store.length
      else store.length + 1) := by
  induction store with
  | nil => refine ⟨by simp [upsertSubscription], by simp [upsertSubscription], by simp [upsertSubscription]⟩
  | cons s rest ih =>
      by_cases hse : (s.endpoint == ep) = true
      · have hzero : rest.countP (fun t => t.endpoint == ep) = 0 := by
          rw [List.countP_cons] at huniq
          simp only [hse, if_true] at huniq
          omega
        have hnil : rest.filter (fun t => t.endpoint == ep) = [] := by
          rw [List.filter_eq_nil_iff]
          intro t ht
          have := List.countP_eq_zero.mp hzero t ht
          simpa using this
        have hq : s.endpoint = ep := by simpa using hse
        refine ⟨?_, ?_, ?_⟩
        · simp [upsertSubscription, hse, List.filter_cons, hnil]
        · simp [upsertSubscription, hse, List.filter_cons, hq]
        · simp [upsertSubscription, hse, List.any_cons]
      · have hle : rest.countP (fun t => t.endpoint == ep) ≤ 1 := by
          rw [List.countP_cons] at huniq
          simp only [hse, if_false] at huniq
          omega
        obtain ⟨ih1, ih2, ih3⟩ := ih hle
        refine ⟨?_, ?_, ?_⟩
        · simp [upsertSubscription, hse, List.filter_cons, ih1]
        · have hne : (s.endpoint != ep) = true := by simpa using hse
          simp [upsertSubscription, hse, List.filter_cons, hne, ih2]
        · simp only [upsertSubscription, hse, if_false, List.length_cons,
            List.any_cons]
          by_cases hany : rest.any (fun t => t.endpoint == ep) = true <;>
            simp [ih3, hany, hse]

/-- Witness for C8: re-registering endpoint E1 replaces its binding and
does not create a second E1 record. -/
theorem subscription_upsert_unique_endpoint_witness :
    ([⟨"E1", ⟨some "p", some "a"⟩, some "abc"⟩] : List Subscription).countP
      (fun t => t.endpoint == "E1") ≤ 1 ∧
    ((upsertSubscription "E1" ⟨some "q", some "b"⟩ (some "xyz")
        [⟨"E1", ⟨some "p", some "a"⟩, some "abc"⟩]).filter
      (fun t => t.endpoint == "E1") =
      [⟨"E1", ⟨some "q", some "b"⟩, some "xyz"⟩]) :=
  ⟨by decide,
    (subscription_upsert_unique_endpoint "E1" ⟨some "q", some "b"⟩ (some "xyz")
      [⟨"E1", ⟨some "p", some "a"⟩, some "abc"⟩] (by decide)).1⟩

/-- The number of times a connection id appears among a broadcast's
recipients is the number of membership pairs binding it to the room. -/
theorem count_broadcastRecipients (reg : List (String × String))
    (sid c : String) :
    (broadcastRecipients reg sid).count c =
      reg.countP (fun p => p.1 == c && p.2 == sid) := by
  induction reg with
  | nil => rfl
  | cons p reg ih =>
      simp only [broadcastRecipients, List.filter_cons] at ih ⊢
      by_cases h2 : (p.2 == sid) = true
      · simp [h2, List.count_cons, List.countP_cons, ih]
      · have hf : (p.1 == c && p.2 == sid) = false := by
          rw [Bool.and_eq_false_iff]; right; simpa using h2
        simp only [h2, if_false, List.countP_cons, hf]
        simpa using ih

/-- C9: joining a session a second time is a no-op, and for a
connection not previously joined, after two joins the pair is in the
registry exactly once and a broadcast to the session reaches the
connection exactly once. -/
theorem joinSession_idempotent (reg : List (String × String))
    (c sid : String) :
    joinSession (joinSession reg c sid) c sid = joinSession reg c sid ∧
    ((c, sid) ∉ reg →
      (joinSession (joinSession reg c sid) c sid).count (c, sid) = 1 ∧
      (broadcastRecipients (joinSession (joinSession reg c sid) c sid) sid).count c
        = 1) := by
  have hcm : ∀ (l : List (String × String)) (a : String × String),
      l.contains a = true ↔ a ∈ l := by
    intro l a; simp [List.contains]
  have hmem : (c, sid) ∈ joinSession reg c sid := by
    unfold joinSession
    by_cases h : reg.contains (c, sid) = true
    · rw [if_pos h]; exact (hcm reg (c, sid)).mp h
    · rw [if_neg h]; exact List.mem_cons_self _ _
  have hgen : ∀ l : List (String × String), (c, sid) ∈ l → joinSession l c sid = l := by
    intro l hl
    unfold joinSession
    rw [if_pos ((hcm _ _).mpr hl)]
  have hstep : joinSession (joinSession reg c sid) c sid = joinSession reg c sid :=
    hgen _ hmem
  refine ⟨hstep, ?_⟩
  intro hnot
  have hj : joinSession reg c sid = (c, sid) :: reg := by
    unfold joinSession
    rw [if_neg (by simpa using fun h => hnot ((hcm _ _).mp h))]
  have hzero : reg.countP (fun p => p.1 == c && p.2 == sid) = 0 := by
    rw [List.countP_eq_zero]
    intro p hp hpv
    rcases Bool.and_eq_true_iff.mp hpv with ⟨h1, h2⟩
    have h1e : p.1 = c := by simpa using h1
    have h2e : p.2 = sid := by simpa using h2
    exact hnot (by rw [← h1e, ← h2e]; exact hp)
  constructor
  · rw [hstep, hj, List.count_cons]
    have : reg.count (c, sid) = 0 := List.count_eq_zero.mpr hnot
    simp [this]
  · rw [hstep, hj, count_broadcastRecipients, List.countP_cons]
    simp [hzero]

/-- Witness for C9: connection A, not yet joined while B is, joins
"abc" twice; its membership and a broadcast both reach it once. -/
theorem joinSession_idempotent_witness :
    ("A", "abc") ∉ [("B", "abc")] ∧
    (joinSession (joinSession [("B", "abc")] "A" "abc") "A" "abc").count
      ("A", "abc") = 1 ∧
    (broadcastRecipients
      (joinSession (joinSession [("B", "abc")] "A" "abc") "A" "abc")
      "abc").count "A" = 1 :=
  ⟨by decide, (joinSession_idempotent [("B", "abc")] "A" "abc").2 (by decide)⟩

/-- C10: the registration handler answers 400 exactly when the
endpoint field is falsy or the keys field is absent — a payload with a
keys object lacking p256dh or auth, or without a sessionId, passes the
check — and when the check passes but the store operation rejects, the
answer is 500 with the store unchanged. -/
theorem save_subscription_validation_exact (body : SubPayload)
    (storeOk : Bool) (store : List Subscription) :
    ((saveSubscription body storeOk store).1 = 400 ↔
      (strFalsy body.endpoint || body.keys.isNone) = true) ∧
    ((strFalsy body.endpoint || body.keys.isNone) = false →
      storeOk = false →
      saveSubscription body storeOk store = (500, store)) := by
  obtain ⟨e, k, si⟩ := body
  rcases e with _ | s
  · simp [saveSubscription, strFalsy]
  · rcases k with _ | ks
    · simp [saveSubscription, strFalsy]
    · by_cases hse : s.isEmpty = true
      · simp [saveSubscription, strFalsy, hse]
      · cases storeOk <;>
          simp [saveSubscription, strFalsy, hse]

/-- Witness for C10: a payload with empty keys object and no sessionId
passes validation, and a store rejection surfaces as a 500. -/
theorem save_subscription_validation_exact_witness :
    (strFalsy (⟨some "E", some ⟨none, none⟩, none⟩ : SubPayload).endpoint ||
      (⟨some "E", some ⟨none, none⟩, none⟩ : SubPayload).keys.isNone) = false ∧
    saveSubscription ⟨some "E", some ⟨none, none⟩, none⟩ false [] = (500, []) :=
  ⟨by decide,
    (save_subscription_validation_exact ⟨some "E", some ⟨none, none⟩, none⟩
      false []).2 (by decide) rfl⟩

/-- Witness for C3: one subscription for session "abc" whose delivery
fails with 410 is deleted from the store by the handler. -/
theorem push_failure_classification_witness :
    (⟨"E1", ⟨some "p", some "a"⟩, some "abc"⟩ : Subscription) ∈
      ([⟨"E1", ⟨some "p", some "a"⟩, some "abc"⟩] : List Subscription) ∧
    Effect.deleteSub "E1" ∈
      (handleChatMessage "http://b" ⟨"abc", "u1", "hi", "", ""⟩ 0 true true
        (fun _ => PushOutcome.failure 410)
        ⟨[], [⟨"E1", ⟨some "p", some "a"⟩, some "abc"⟩]⟩).1 :=
  ⟨by decide,
    ((push_failure_classification "http://b" ⟨"abc", "u1", "hi", "", ""⟩ 0 true
      (fun _ => PushOutcome.failure 410)
      ⟨[], [⟨"E1", ⟨some "p", some "a"⟩, some "abc"⟩]⟩
      ⟨"E1", ⟨some "p", some "a"⟩, some "abc"⟩ 410
      (by decide) rfl (by decide) rfl).1 (Or.inl rfl)).1⟩

end ChatBackend
